import Mathlib

/-!
Verification of the task-management repository's task normalization and
reminder-scheduling pipeline: date normalization (`src/lib/api.ts`), team
lookup and creation (`src/lib/api.ts`), the task edit submission pipeline
(`src/components/tasks/TaskEditDialog.tsx` `handleSubmit`), and the
reminder scheduler (`src/lib/api.ts` `scheduleTaskReminder`).
-/

namespace TasksApp

/-! ## Date/Time normalization (src/lib/api.ts lines 5-13) -/

/-- A calendar date by components, the abstraction of a JS `Date` when only
date components matter (time-of-day and timezone ignored). -/
structure SimpleDate where
  year : Nat
  month : Nat
  day : Nat
deriving DecidableEq, Repr

/-- The character for a single decimal digit value. -/
def digitChar (n : Nat) : Char := Char.ofNat (48 + n)

/-- Decimal value of a digit character. -/
def charDigit (c : Char) : Nat := c.toNat - 48

/-- Four-digit zero-padded decimal rendering (values up to 9999). -/
def pad4 (n : Nat) : List Char :=
  [digitChar (n / 1000), digitChar (n / 100 % 10), digitChar (n / 10 % 10), digitChar (n % 10)]

/-- Two-digit zero-padded decimal rendering (values up to 99). -/
def pad2 (n : Nat) : List Char :=
  [digitChar (n / 10), digitChar (n % 10)]

/-- `formatDateForSupabase` (src/lib/api.ts line 6): renders the date with the
date-fns pattern `yyyy-MM-dd`, i.e. zero-padded `YYYY-MM-DD` text.
Faithful for years up to 9999 (the fixed four-digit `YYYY` field). -/
def formatDateForSupabase (d : SimpleDate) : String :=
  String.mk (pad4 d.year ++ '-' :: (pad2 d.month ++ '-' :: pad2 d.day))

/-- Gregorian leap-year rule, as used by the JS `Date` built-in. -/
def isLeapYear (y : Nat) : Bool :=
  (y % 4 == 0 && y % 100 != 0) || y % 400 == 0

/-- Number of days in a month of a given year, as used by the JS `Date`
built-in when validating an ISO date string. -/
def daysInMonth (y m : Nat) : Nat :=
  if m = 2 then (if isLeapYear y then 29 else 28)
  else if m = 4 ∨ m = 6 ∨ m = 9 ∨ m = 11 then 30
  else 31

/-- `parseDateFromSupabase` (src/lib/api.ts line 11): `null` maps to `null`;
otherwise the string is handed to `new Date(...)`, which for a date-only
string follows the ECMA-262 Date Time String Format `YYYY-MM-DD`
(exactly four year digits, two month digits, two day digits, with range
validation); a string not of that shape, or out of range, yields an
invalid date, modelled as `none`. -/
def parseDateFromSupabase (s : Option String) : Option SimpleDate :=
  match s with
  | none => none
  | some str =>
    match str.data with
    | [y1, y2, y3, y4, h1, m1, m2, h2, d1, d2] =>
      if h1 = '-' ∧ h2 = '-' ∧ y1.isDigit ∧ y2.isDigit ∧ y3.isDigit ∧ y4.isDigit ∧
          m1.isDigit ∧ m2.isDigit ∧ d1.isDigit ∧ d2.isDigit then
        let y := 1000 * charDigit y1 + 100 * charDigit y2 + 10 * charDigit y3 + charDigit y4
        let m := 10 * charDigit m1 + charDigit m2
        let d := 10 * charDigit d1 + charDigit d2
        if 1 ≤ m ∧ m ≤ 12 ∧ 1 ≤ d ∧ d ≤ daysInMonth y m then some ⟨y, m, d⟩ else none
      else none
    | _ => none

/-- A valid calendar date (Gregorian), with a year renderable in the fixed
four-digit `YYYY` field of the storage format. -/
def validDate (d : SimpleDate) : Prop :=
  1 ≤ d.month ∧ d.month ≤ 12 ∧ 1 ≤ d.day ∧ d.day ≤ daysInMonth d.year d.month ∧ d.year ≤ 9999

instance (d : SimpleDate) : Decidable (validDate d) := by
  unfold validDate; infer_instance

lemma isDigit_digitChar {k : Nat} (hk : k < 10) : (digitChar k).isDigit = true := by
  interval_cases k <;> decide

lemma charDigit_digitChar {k : Nat} (hk : k < 10) : charDigit (digitChar k) = k := by
  interval_cases k <;> decide

end TasksApp

namespace TasksApp

lemma daysInMonth_le31 (y m : Nat) : daysInMonth y m ≤ 31 := by
  unfold daysInMonth
  split
  · split <;> omega
  · split <;> omega

/-! ## Submission pipeline string helpers (TaskEditDialog.tsx lines 73-102)

JS string primitives used by `handleSubmit`, modelled over `List Char` so
that every operation computes by structural recursion. -/

/-- JS `String.prototype.split(',')` on the character list: the list of
maximal comma-free segments, in order; `n` commas yield `n + 1` segments. -/
def splitCommaChars (cs : List Char) : List (List Char) :=
  match cs with
  | [] => [[]]
  | c :: rest =>
    if c = ',' then [] :: splitCommaChars rest
    else
      match splitCommaChars rest with
      | [] => [[c]]
      | h :: t => (c :: h) :: t

/-- JS `String.prototype.split(',')`. -/
def jsSplitComma (s : String) : List String :=
  (splitCommaChars s.data).map String.mk

/-- JS whitespace trimming on the character list: drop leading and trailing
whitespace characters. -/
def jsTrimChars (cs : List Char) : List Char :=
  ((cs.dropWhile Char.isWhitespace).reverse.dropWhile Char.isWhitespace).reverse

/-- JS `String.prototype.trim()`: strips leading and trailing whitespace. -/
def jsTrim (s : String) : String :=
  String.mk (jsTrimChars s.data)

/-- JS `String.prototype.substring(0, 2)`: the first two characters, or the
whole string when it is shorter. -/
def substringFirstTwo (s : String) : String :=
  String.mk (s.data.take 2)

/-- JS `String.prototype.toUpperCase()` restricted to the embedding's
alphabet (ASCII letters are mapped to upper case). -/
def toUpperCase (s : String) : String :=
  String.mk (s.data.map Char.toUpper)

/-- JS `parseInt(s, 10)` (TaskEditDialog.tsx line 92): trim whitespace, read
an optional sign, then the maximal leading run of decimal digits; an empty
run yields `NaN`, modelled as `none`. -/
def parseIntBase10 (s : String) : Option Int :=
  match jsTrimChars s.data with
  | [] => none
  | c :: rest =>
    let signed : Int × List Char :=
      if c = '-' then (-1, rest) else if c = '+' then (1, rest) else (1, c :: rest)
    let digits := signed.2.takeWhile Char.isDigit
    if digits = [] then none
    else some (signed.1 * (digits.foldl (fun n ch => 10 * n + (ch.toNat - 48)) 0 : Nat))

/-- Whether a raw numeric string is well-formed for `parseInt(s, 10)`: after
trimming whitespace and an optional sign, it starts with a decimal digit.
A string failing this is the malformed (non-numeric) input of the spec. -/
def hasNumericPrefix (s : String) : Bool :=
  match jsTrimChars s.data with
  | [] => false
  | c :: rest =>
    if c = '-' ∨ c = '+' then
      match rest with
      | [] => false
      | d :: _ => d.isDigit
    else c.isDigit

/-! ## Submission pipeline data model (TaskEditDialog.tsx) -/

/-- An entry of the `teamMembers` prop: `{ id: string; name: string }`. -/
structure FormTeamMember where
  id : String
  name : String
deriving DecidableEq, Repr

/-- The `assignedTo` snapshot built by `handleSubmit` (lines 94-98). -/
structure AssignedTo where
  id : String
  name : String
  initials : String
deriving DecidableEq, Repr

/-- Raw form values handed to `handleSubmit` (`data`). String-valued fields
that JS treats by truthiness (`tags`, `assignedTo`, `teamId`, `progress`)
are plain strings, with `""` standing for the empty/absent falsy value. -/
structure FormData where
  title : String
  description : String
  priority : String
  status : String
  dueDate : Option String
  dueTime : Option String
  reminderEnabled : Bool
  reminderTime : Option String
  progress : String
  tags : String
  assignedTo : String
  teamId : String
deriving DecidableEq, Repr

/-- The canonical task payload passed to `onSubmit` (lines 82-100).
`progress` is `Option Int` with `none` for the JS `NaN` sentinel. -/
structure TaskOut where
  id : Option String
  title : String
  description : String
  priority : String
  status : String
  dueDate : Option String
  dueTime : Option String
  reminderSet : Bool
  reminderTime : Option String
  progress : Option Int
  tags : Option (List String)
  assignedTo : Option AssignedTo
  teamId : Option String
deriving DecidableEq, Repr

/-- Tag processing of `handleSubmit` (lines 75 and 93):
`data.tags ? data.tags.split(',').map(tag => tag.trim()) : []`, then
`tags.length > 0 ? tags : null`. -/
def processTags (raw : String) : Option (List String) :=
  let tags := if raw = "" then [] else (jsSplitComma raw).map jsTrim
  if tags.length > 0 then some tags else none

/-- `handleSubmit` (TaskEditDialog.tsx lines 73-102) as a pure function from
the edited task's id, the candidate member list and the raw form values to
the payload passed to `onSubmit`. -/
def handleSubmit (taskId : Option String) (teamMembers : List FormTeamMember)
    (data : FormData) : TaskOut :=
  let assignedTeamMember :=
    if data.assignedTo = "" then none
    else teamMembers.find? (fun m => m.id == data.assignedTo)
  { id := taskId
    title := data.title
    description := data.description
    priority := data.priority
    status := data.status
    dueDate := data.dueDate
    dueTime := data.dueTime
    reminderSet := data.reminderEnabled
    reminderTime := if data.reminderEnabled then data.reminderTime else none
    progress := parseIntBase10 data.progress
    tags := processTags data.tags
    assignedTo := assignedTeamMember.map
      (fun m => ⟨m.id, m.name, toUpperCase (substringFirstTwo m.name)⟩)
    teamId := if data.teamId = "" then none else some data.teamId }

end TasksApp

namespace TasksApp

/-! ## Team and membership model (src/lib/api.ts lines 15-147)

Backend queries and inserts are request/response calls; each is modelled by
an oracle argument of type `Except` giving the backend's answer, so that a
run of the function is determined by the answers the backend would give. -/

/-- A team row (`Team` interface, api.ts lines 28-34). -/
structure Team where
  id : String
  name : String
  description : Option String
  created_by : String
  created_at : String
deriving DecidableEq, Repr

/-- `CreateTeamParams` (api.ts lines 36-40). -/
structure CreateTeamParams where
  name : String
  description : Option String
  created_by : String
deriving DecidableEq, Repr

/-- A `team_members` row as inserted by `createTeam` (api.ts lines 132-138). -/
structure TeamMemberRow where
  team_id : String
  user_id : String
  role : String
deriving DecidableEq, Repr

/-- The backend store visible to `createTeam`: the `teams` and
`team_members` tables. -/
structure Store where
  teams : List Team
  members : List TeamMemberRow
deriving DecidableEq, Repr

/-- `getTeams` (api.ts lines 87-115). `membershipRes` is the backend's
answer to the membership query (error, or possibly-null list of the user's
`team_id` values); `teamsRes` answers the team query that the code issues
only when memberships are non-empty. A thrown error is caught and turned
into `[]` (lines 111-114); a null data payload is treated as empty. -/
def getTeams (membershipRes : Except String (Option (List String)))
    (teamsRes : Except String (Option (List Team))) : List Team :=
  match membershipRes with
  | .error _ => []
  | .ok none => []
  | .ok (some []) => []
  | .ok (some (_ :: _)) =>
    match teamsRes with
    | .error _ => []
    | .ok none => []
    | .ok (some ts) => ts

/-- `createTeam` (api.ts lines 117-147). `teamInsertRes` is the backend's
answer to the team insert (the created row on success), `memberInsertRes`
to the membership insert. The result is the final backend store paired
with the outcome the caller sees; a thrown error is re-thrown (line 145),
so it reaches the caller, and inserts already performed stay in the
store. -/
def createTeam (store : Store) (params : CreateTeamParams)
    (teamInsertRes : Except String Team) (memberInsertRes : Except String Unit) :
    Store × Except String Team :=
  match teamInsertRes with
  | .error e => (store, .error e)
  | .ok row =>
    let store1 : Store := { store with teams := store.teams ++ [row] }
    match memberInsertRes with
    | .error e => (store1, .error e)
    | .ok _ =>
      ({ store1 with
          members := store1.members ++ [⟨row.id, params.created_by, "admin"⟩] },
        .ok row)

/-! ## Reminder scheduler (src/lib/api.ts lines 149-173) -/

/-- A task as consumed by `scheduleTaskReminder` (the `Task` interface plus
the `emailNotification` / `notificationEmail` fields the function reads);
`notificationEmail = ""` stands for the absent/falsy value. -/
structure ReminderTask where
  id : String
  title : String
  dueDate : Option SimpleDate
  dueTime : Option String
  reminderSet : Bool
  emailNotification : Bool
  notificationEmail : String
deriving DecidableEq, Repr

/-- Month abbreviations of the default date-fns locale. -/
def monthAbbrev (m : Nat) : String :=
  match m with
  | 1 => "Jan" | 2 => "Feb" | 3 => "Mar" | 4 => "Apr" | 5 => "May" | 6 => "Jun"
  | 7 => "Jul" | 8 => "Aug" | 9 => "Sep" | 10 => "Oct" | 11 => "Nov" | _ => "Dec"

/-- date-fns `format(date, 'PP')` (api.ts line 161): the long-form localized
date, `MMM d, y` in the default locale. -/
def formatPP (d : SimpleDate) : String :=
  monthAbbrev d.month ++ " " ++ toString d.day ++ ", " ++ toString d.year

/-- The body sent to the `send-reminder` edge function (api.ts lines 157-163). -/
structure ReminderPayload where
  taskId : String
  email : String
  taskTitle : String
  dueDate : Option String
  dueTime : Option String
deriving DecidableEq, Repr

/-- `scheduleTaskReminder` (api.ts lines 149-173). `invokeRes` is the
backend's answer to the one `functions.invoke('send-reminder', ...)` call.
The first component records the invocation performed (`none` when the
guard at line 151 returns early and no remote call happens); the second is
the outcome the caller sees: an invoke error is thrown and re-thrown
(lines 166, 171), every other path resolves normally. -/
def scheduleTaskReminder (task : ReminderTask) (invokeRes : Except String Unit) :
    Option ReminderPayload × Except String Unit :=
  if task.reminderSet = false ∨ task.emailNotification = false ∨ task.notificationEmail = "" then
    (none, .ok ())
  else
    let payload : ReminderPayload :=
      ⟨task.id, task.notificationEmail, task.title, task.dueDate.map formatPP, task.dueTime⟩
    match invokeRes with
    | .error e => (some payload, .error e)
    | .ok _ => (some payload, .ok ())

/-- Whether an `Except` outcome is an error (a thrown/rejected result). -/
def isError (r : Except String Unit) : Bool :=
  match r with
  | .error _ => true
  | .ok _ => false

end TasksApp

namespace TasksApp

/-! ## Helper lemmas -/

lemma splitCommaChars_ne_nil (cs : List Char) : splitCommaChars cs ≠ [] := by
  induction cs with
  | nil => simp [splitCommaChars]
  | cons c rest ih =>
    unfold splitCommaChars
    by_cases hc : c = ','
    · simp [hc]
    · simp only [hc, if_false]
      cases h : splitCommaChars rest <;> simp

lemma parseIntBase10_none_iff (s : String) :
    parseIntBase10 s = none ↔ hasNumericPrefix s = false := by
  unfold parseIntBase10 hasNumericPrefix
  cases h : jsTrimChars s.data with
  | nil => simp
  | cons c rest =>
    by_cases h1 : c = '-'
    · simp only [h1, if_pos (Or.inl rfl), if_pos rfl]
      cases rest with
      | nil => simp
      | cons d ds =>
        cases hd : d.isDigit <;> simp [List.takeWhile_cons, hd]
    · by_cases h2 : c = '+'
      · simp only [h2, if_pos (Or.inr rfl)]
        simp only [if_neg (by simp : ¬('+' = '-')), if_pos rfl]
        cases rest with
        | nil => simp
        | cons d ds =>
          cases hd : d.isDigit <;> simp [List.takeWhile_cons, hd]
      · have hor : ¬(c = '-' ∨ c = '+') := by tauto
        simp only [if_neg hor, if_neg h1, if_neg h2]
        cases hc : c.isDigit <;> simp [List.takeWhile_cons, hc]

/-! ## Claim theorems -/

/-- C1 (counterexample): the tag transformation does not drop empty pieces.
On the raw tag string `"a, b ,,c"` (the spec's own §8 scenario, expected
there to give `["a","b","c"]`) the pipeline produces a tags sequence that
contains an empty-string entry, so the claim that repeated commas produce
no empty-string entries is false on the code. -/
theorem processTags_keeps_empty_pieces_cex :
    processTags "a, b ,,c" = some ["a", "b", "", "c"] ∧
    "" ∈ ["a", "b", "", "c"] := by
  constructor
  · decide
  · decide

/-- C1 (amended): the tag transformation splits the raw string on commas and
trims whitespace from each piece but does not drop empty pieces. The output
is null exactly when the raw string is empty; otherwise it is the non-empty
sequence of all trimmed pieces in input order (duplicates allowed), which
contains an empty-string entry for each leading, trailing or repeated
comma. -/
theorem processTags_splits_trims_no_drop (s : String) :
    (processTags s = none ↔ s = "") ∧
    (s ≠ "" → processTags s = some ((jsSplitComma s).map jsTrim) ∧
      (jsSplitComma s).map jsTrim ≠ []) := by
  by_cases hs : s = ""
  · subst hs
    refine ⟨by simp [processTags], fun h => absurd rfl h⟩
  · have hne : (jsSplitComma s).map jsTrim ≠ [] := by
      simp only [jsSplitComma, List.map_map, ne_eq, List.map_eq_nil_iff]
      exact splitCommaChars_ne_nil s.data
    have hlen : 0 < ((jsSplitComma s).map jsTrim).length := List.length_pos.mpr hne
    constructor
    · simp only [processTags, hs, if_false]
      rw [if_pos hlen]
      simp [hs]
    · intro _
      refine ⟨?_, hne⟩
      simp only [processTags, hs, if_false]
      rw [if_pos hlen]

/-- C1 (witness): the amended claim applied to the concrete raw string
`"x ,,"`, whose trailing and repeated commas yield empty entries. -/
theorem processTags_splits_trims_no_drop_witness :
    processTags "x ,," = some ["x", "", ""] ∧ (["x", "", ""] : List String) ≠ [] := by
  have h := (processTags_splits_trims_no_drop "x ,,").2 (by decide)
  exact ⟨h.1.trans (by decide), by decide⟩

/-- C2: for every valid calendar date `d` (renderable in the fixed
`YYYY-MM-DD` storage format), parsing the rendered text recovers exactly
the date components of `d`: `fromStorageDate(toStorageDate(d))` is
date-equal to `d`, time-of-day and timezone ignored. -/
theorem fromStorage_toStorage_roundtrip (d : SimpleDate) (h : validDate d) :
    parseDateFromSupabase (some (formatDateForSupabase d)) = some d := by
  obtain ⟨y, m, dd⟩ := d
  obtain ⟨hm1, hm2, hd1, hd2, hy⟩ := h
  have Hm1 : 1 ≤ m := hm1
  have Hm2 : m ≤ 12 := hm2
  have Hd1 : 1 ≤ dd := hd1
  have Hd2 : dd ≤ daysInMonth y m := hd2
  have Hy : y ≤ 9999 := hy
  have Hdm := daysInMonth_le31 y m
  have b1 : y / 1000 < 10 := by omega
  have b2 : y / 100 % 10 < 10 := by omega
  have b3 : y / 10 % 10 < 10 := by omega
  have b4 : y % 10 < 10 := by omega
  have b5 : m / 10 < 10 := by omega
  have b6 : m % 10 < 10 := by omega
  have b7 : dd / 10 < 10 := by omega
  have b8 : dd % 10 < 10 := by omega
  have ey : 1000 * charDigit (digitChar (y / 1000)) + 100 * charDigit (digitChar (y / 100 % 10))
      + 10 * charDigit (digitChar (y / 10 % 10)) + charDigit (digitChar (y % 10)) = y := by
    rw [charDigit_digitChar b1, charDigit_digitChar b2, charDigit_digitChar b3,
      charDigit_digitChar b4]
    omega
  have em : 10 * charDigit (digitChar (m / 10)) + charDigit (digitChar (m % 10)) = m := by
    rw [charDigit_digitChar b5, charDigit_digitChar b6]; omega
  have ed : 10 * charDigit (digitChar (dd / 10)) + charDigit (digitChar (dd % 10)) = dd := by
    rw [charDigit_digitChar b7, charDigit_digitChar b8]; omega
  simp only [formatDateForSupabase, parseDateFromSupabase, pad4, pad2, List.cons_append,
    List.nil_append, ey, em, ed, isDigit_digitChar b1, isDigit_digitChar b2,
    isDigit_digitChar b3, isDigit_digitChar b4, isDigit_digitChar b5, isDigit_digitChar b6,
    isDigit_digitChar b7, isDigit_digitChar b8, and_true, true_and, and_self, if_true]
  rw [if_pos ⟨Hm1, Hm2, Hd1, Hd2⟩]

/-- C2 (witness): the round trip evaluated on the leap day 2024-02-29. -/
theorem fromStorage_toStorage_roundtrip_witness :
    validDate ⟨2024, 2, 29⟩ ∧
    parseDateFromSupabase (some (formatDateForSupabase ⟨2024, 2, 29⟩)) = some ⟨2024, 2, 29⟩ :=
  ⟨by decide, fromStorage_toStorage_roundtrip ⟨2024, 2, 29⟩ (by decide)⟩

end TasksApp

namespace TasksApp

/-- C3: the reminder fields policy of the pipeline. `reminderSet` mirrors
`reminderEnabled`; when `reminderEnabled` is false the output
`reminderTime` is forced to null regardless of the raw value, and when
true the raw `reminderTime` is kept. -/
theorem reminder_fields_policy (taskId : Option String) (members : List FormTeamMember)
    (data : FormData) :
    (handleSubmit taskId members data).reminderSet = data.reminderEnabled ∧
    (data.reminderEnabled = false → (handleSubmit taskId members data).reminderTime = none) ∧
    (data.reminderEnabled = true →
      (handleSubmit taskId members data).reminderTime = data.reminderTime) := by
  refine ⟨rfl, fun h => ?_, fun h => ?_⟩ <;> simp [handleSubmit, h]

/-- A raw form submission with the reminder disabled but a stale raw
reminder time still present, used to exercise the reminder policy. -/
def disabledReminderForm : FormData :=
  { title := "T", description := "", priority := "high", status := "pending",
    dueDate := none, dueTime := none, reminderEnabled := false,
    reminderTime := some "09:00", progress := "50", tags := "",
    assignedTo := "", teamId := "" }

/-- C3 (witness): a disabled-reminder submission carrying a stale raw
reminder time produces a null output reminder time. -/
theorem reminder_fields_policy_witness :
    (handleSubmit none [] disabledReminderForm).reminderTime = none :=
  (reminder_fields_policy none [] disabledReminderForm).2.1 rfl

/-- C4: assignee resolution. When the raw `assignedTo` is non-empty and the
candidate member list resolves it to a member, the output snapshot carries
that member's id and name and `initials` equal to the uppercase of the
first two characters of the name (the whole name when shorter); when the
raw `assignedTo` is non-empty but resolves to no member, the assignment is
omitted, and no error is raised (the function is total). -/
theorem assignee_resolution_initials (taskId : Option String)
    (members : List FormTeamMember) (data : FormData) :
    (∀ m, data.assignedTo ≠ "" →
      members.find? (fun mm => mm.id == data.assignedTo) = some m →
      (handleSubmit taskId members data).assignedTo =
        some ⟨m.id, m.name, toUpperCase (substringFirstTwo m.name)⟩) ∧
    (data.assignedTo ≠ "" →
      members.find? (fun mm => mm.id == data.assignedTo) = none →
      (handleSubmit taskId members data).assignedTo = none) := by
  constructor
  · intro m hne hfind
    simp [handleSubmit, hne, hfind]
  · intro hne hfind
    simp [handleSubmit, hne, hfind]

/-- A form submission assigning the task to member id `"m1"`. -/
def assigningForm : FormData :=
  { title := "T", description := "", priority := "low", status := "pending",
    dueDate := none, dueTime := none, reminderEnabled := false,
    reminderTime := none, progress := "0", tags := "",
    assignedTo := "m1", teamId := "" }

/-- C4 (witness): resolving the two-character member name `"Al"` yields the
snapshot with initials `"AL"`. -/
theorem assignee_resolution_initials_witness :
    (handleSubmit none [⟨"m1", "Al"⟩] assigningForm).assignedTo =
      some ⟨"m1", "Al", "AL"⟩ := by
  have h := (assignee_resolution_initials none [⟨"m1", "Al"⟩] assigningForm).1
    ⟨"m1", "Al"⟩ (by decide) (by decide)
  exact h.trans (by decide)

/-- C5: `scheduleTaskReminder` performs no remote invocation and resolves
normally unless `reminderSet`, the email-notification flag and the
notification email address all hold; when all three hold it performs the
single `send-reminder` invocation with the payload
`{taskId, email, taskTitle, dueDate as long-form display date or null,
dueTime}`. -/
theorem scheduleTaskReminder_guard (t : ReminderTask) (r : Except String Unit) :
    ((t.reminderSet = false ∨ t.emailNotification = false ∨ t.notificationEmail = "") →
      scheduleTaskReminder t r = (none, Except.ok ())) ∧
    (t.reminderSet = true → t.emailNotification = true → t.notificationEmail ≠ "" →
      (scheduleTaskReminder t r).1 =
        some ⟨t.id, t.notificationEmail, t.title, t.dueDate.map formatPP, t.dueTime⟩) := by
  constructor
  · intro h
    simp [scheduleTaskReminder, h]
  · intro h1 h2 h3
    have hg : ¬(t.reminderSet = false ∨ t.emailNotification = false ∨
        t.notificationEmail = "") := by
      simp [h1, h2, h3]
    simp only [scheduleTaskReminder, if_neg hg]
    cases r <;> rfl

/-- A task whose reminder flag is off (other conditions hold). -/
def reminderOffTask : ReminderTask :=
  ⟨"t1", "Title", none, none, false, true, "a@b.c"⟩

/-- A task satisfying all three reminder preconditions, with a due date. -/
def reminderOnTask : ReminderTask :=
  ⟨"t2", "Title2", some ⟨2024, 5, 3⟩, some "10:00", true, true, "a@b.c"⟩

/-- C5 (witness): with the reminder flag off no invocation happens and the
call resolves normally; with all three preconditions holding the
invocation carries the normalized payload (due date rendered long-form). -/
theorem scheduleTaskReminder_guard_witness :
    scheduleTaskReminder reminderOffTask (Except.ok ()) = (none, Except.ok ()) ∧
    (scheduleTaskReminder reminderOnTask (Except.ok ())).1 =
      some ⟨"t2", "a@b.c", "Title2", some "May 3, 2024", some "10:00"⟩ :=
  ⟨(scheduleTaskReminder_guard reminderOffTask (Except.ok ())).1 (Or.inl rfl),
    ((scheduleTaskReminder_guard reminderOnTask (Except.ok ())).2 rfl rfl
      (by decide)).trans (by decide)⟩

/-- C6: `getTeams` returns an empty sequence and never raises an error (it
is a total function into `List Team`) when the user has no membership rows
(null or empty data), when the membership lookup fails, and when the team
lookup fails: failures are swallowed, not propagated. -/
theorem getTeams_swallows_failures (mres : Except String (Option (List String)))
    (tres : Except String (Option (List Team))) :
    (∀ e, mres = Except.error e → getTeams mres tres = []) ∧
    (mres = Except.ok none ∨ mres = Except.ok (some []) → getTeams mres tres = []) ∧
    (∀ e, tres = Except.error e → getTeams mres tres = []) := by
  refine ⟨fun e he => ?_, fun h => ?_, fun e he => ?_⟩
  · simp [getTeams, he]
  · rcases h with h | h <;> simp [getTeams, h]
  · subst he
    unfold getTeams
    rcases mres with e' | ids
    · rfl
    · rcases ids with _ | ids
      · rfl
      · rcases ids with _ | ⟨i, is⟩ <;> rfl

/-- C6 (witness): a failing membership query and a zero-membership result
both produce the empty sequence. -/
theorem getTeams_swallows_failures_witness :
    getTeams (Except.error "net down") (Except.ok none) = [] ∧
    getTeams (Except.ok (some [])) (Except.ok none) = [] :=
  ⟨(getTeams_swallows_failures (Except.error "net down") (Except.ok none)).1 "net down" rfl,
    (getTeams_swallows_failures (Except.ok (some [])) (Except.ok none)).2.1 (Or.inr rfl)⟩

/-- C7: `createTeam` inserts the team row, then a creator membership row
with admin role; it returns the created team when both inserts succeed and
propagates the error when either fails. The two inserts are not atomic:
when the membership insert fails after the team insert succeeded, the
final store still contains the team row while the members table is
unchanged — so a team fresh to the members table exists with no
members. -/
theorem createTeam_two_step_inserts (store : Store) (params : CreateTeamParams)
    (ti : Except String Team) (mi : Except String Unit) :
    (∀ e, ti = Except.error e → createTeam store params ti mi = (store, Except.error e)) ∧
    (∀ row, ti = Except.ok row → mi = Except.ok () →
      createTeam store params ti mi =
        ({ teams := store.teams ++ [row],
           members := store.members ++ [⟨row.id, params.created_by, "admin"⟩] },
         Except.ok row)) ∧
    (∀ row e, ti = Except.ok row → mi = Except.error e →
      createTeam store params ti mi =
        ({ store with teams := store.teams ++ [row] }, Except.error e)) ∧
    (∀ row e, ti = Except.ok row → mi = Except.error e →
      (∀ r ∈ store.members, r.team_id ≠ row.id) →
      row ∈ (createTeam store params ti mi).1.teams ∧
      ∀ r ∈ (createTeam store params ti mi).1.members, r.team_id ≠ row.id) := by
  refine ⟨fun e he => ?_, fun row hti hmi => ?_, fun row e hti hmi => ?_,
    fun row e hti hmi hfresh => ?_⟩
  · simp [createTeam, he]
  · simp [createTeam, hti, hmi]
  · simp [createTeam, hti, hmi]
  · subst hti hmi
    simp only [createTeam]
    exact ⟨List.mem_append.mpr (Or.inr (List.mem_singleton.mpr rfl)), hfresh⟩

/-- The team row the backend reports created for the witness run. -/
def alphaTeam : Team := ⟨"tm1", "Alpha", none, "u1", "2024-01-01"⟩

/-- C7 (witness): starting from an empty store, a successful team insert
followed by a failed membership insert propagates the error and leaves the
team row in the store with no membership rows. -/
theorem createTeam_two_step_inserts_witness :
    createTeam ⟨[], []⟩ ⟨"Alpha", none, "u1"⟩ (Except.ok alphaTeam) (Except.error "mfail") =
      (⟨[alphaTeam], []⟩, Except.error "mfail") ∧
    alphaTeam ∈ (createTeam ⟨[], []⟩ ⟨"Alpha", none, "u1"⟩ (Except.ok alphaTeam)
      (Except.error "mfail")).1.teams :=
  ⟨((createTeam_two_step_inserts ⟨[], []⟩ ⟨"Alpha", none, "u1"⟩ (Except.ok alphaTeam)
      (Except.error "mfail")).2.2.1 alphaTeam "mfail" rfl rfl).trans rfl,
    ((createTeam_two_step_inserts ⟨[], []⟩ ⟨"Alpha", none, "u1"⟩ (Except.ok alphaTeam)
      (Except.error "mfail")).2.2.2 alphaTeam "mfail" rfl rfl (by simp)).1⟩

/-- C8: when the reminder preconditions hold and the `send-reminder`
invocation reports an error, `scheduleTaskReminder` propagates that very
error to its caller; in general its outcome is an error exactly when it
performed an invocation and that invocation reported an error. -/
theorem scheduleTaskReminder_propagates_error (t : ReminderTask) (r : Except String Unit) :
    (∀ e, t.reminderSet = true → t.emailNotification = true → t.notificationEmail ≠ "" →
      r = Except.error e → (scheduleTaskReminder t r).2 = Except.error e) ∧
    (isError (scheduleTaskReminder t r).2 =
      ((scheduleTaskReminder t r).1.isSome && isError r)) := by
  constructor
  · intro e h1 h2 h3 hr
    have hg : ¬(t.reminderSet = false ∨ t.emailNotification = false ∨
        t.notificationEmail = "") := by
      simp [h1, h2, h3]
    simp [scheduleTaskReminder, if_neg hg, hr]
  · unfold scheduleTaskReminder
    split
    · simp [isError]
    · cases r <;> simp [isError]

/-- C8 (witness): with all preconditions holding, a failing invocation's
error is the caller-visible outcome. -/
theorem scheduleTaskReminder_propagates_error_witness :
    (scheduleTaskReminder reminderOnTask (Except.error "invoke failed")).2 =
      Except.error "invoke failed" :=
  (scheduleTaskReminder_propagates_error reminderOnTask
    (Except.error "invoke failed")).1 "invoke failed" rfl rfl (by decide) rfl

/-- C9: the pipeline parses the raw progress field with `parseInt(s, 10)`,
and the output progress is the non-numeric sentinel (`NaN`, modelled as
`none`) exactly when the raw string is malformed — no leading decimal
digit after optional whitespace and sign; no error is raised (the
function is total). -/
theorem progress_parse_sentinel (taskId : Option String) (members : List FormTeamMember)
    (data : FormData) :
    (handleSubmit taskId members data).progress = parseIntBase10 data.progress ∧
    ((handleSubmit taskId members data).progress = none ↔
      hasNumericPrefix data.progress = false) :=
  ⟨rfl, parseIntBase10_none_iff data.progress⟩

/-- C10: a raw `teamId` form value that is the empty string yields an unset
output `teamId` (a personal task), while a non-empty raw `teamId` is
passed through unchanged. -/
theorem teamId_empty_means_personal (taskId : Option String)
    (members : List FormTeamMember) (data : FormData) :
    (data.teamId = "" → (handleSubmit taskId members data).teamId = none) ∧
    (data.teamId ≠ "" → (handleSubmit taskId members data).teamId = some data.teamId) := by
  constructor <;> intro h <;> simp [handleSubmit, h]

/-- A form submission carrying the team identifier `"team9"`. -/
def teamScopedForm : FormData :=
  { disabledReminderForm with teamId := "team9" }

/-- C10 (witness): the empty raw `teamId` yields no team association; the
raw value `"team9"` is passed through. -/
theorem teamId_empty_means_personal_witness :
    (handleSubmit none [] disabledReminderForm).teamId = none ∧
    (handleSubmit none [] teamScopedForm).teamId = some "team9" :=
  ⟨(teamId_empty_means_personal none [] disabledReminderForm).1 rfl,
    (teamId_empty_means_personal none [] teamScopedForm).2 (by decide)⟩

end TasksApp
